import Mathlib

/-!
Verification development for the Zen→C source-to-source compiler
(files `zenc4.c`, `zenc3.c`, `zenc2.c`).

The C sources are shallowly embedded: the character-level lexer, the
recursive-descent parser and the C emitter of `zenc4.c` are translated to
executable Lean functions over `List Char` / token lists; the parser is
fuel-indexed (the fuel only bounds recursion depth and loop iterations, it
is not part of the program's semantics).  The string-scanning loop of
`zenc3.c` is embedded separately for the escape-decoding property.

Modelling conventions:
* C strings become Lean `String`/`List Char`; a `char*` that may be NULL
  becomes `Option String`.
* `ASTNode*` child pointers may be NULL in the C code, so every child
  field is `Option AST`; argument arrays whose entries may be NULL become
  `List (Option AST)`.
* Source positions (line/column) are tracked by the C lexer only for
  diagnostics; no verified property depends on them, so tokens carry just
  kind and payload, and error reports are modelled as an error counter.
* The fixed-capacity C arrays (`malloc(sizeof(T) * N)`) are modelled as
  unbounded lists; the capacities (10, 20, 100, 1000) are recorded in
  comments where a property refers to them.
* `ctype.h` classification is the "C" locale: `isalpha` = ASCII letters,
  `isdigit` = ASCII digits.
-/

namespace Zenc

/-- ASCII `isalpha` from ctype.h in the default C locale. -/
def isAlphaC (c : Char) : Bool :=
  ('a' ≤ c && c ≤ 'z') || ('A' ≤ c && c ≤ 'Z')

/-- ASCII `isdigit` from ctype.h. -/
def isDigitC (c : Char) : Bool :=
  '0' ≤ c && c ≤ '9'

/-- ASCII `isalnum` from ctype.h. -/
def isAlnumC (c : Char) : Bool :=
  isAlphaC c || isDigitC c

/-- The character class scanned by `scan_identifier`: `isalnum(c) || c == '_'`. -/
def isIdentChar (c : Char) : Bool :=
  isAlnumC c || c = '_'

/-- Token kinds of `zenc4.c` (enum `TokenType`, in declaration order). -/
inductive TokType where
  | TOK_EOF
  | TOK_IDENTIFIER
  | TOK_NUMBER
  | TOK_STRING
  | TOK_ASSIGN             -- =
  | TOK_COLON_COLON_ASSIGN -- ::=
  | TOK_COLON_COLON        -- ::
  | TOK_COLON              -- :
  | TOK_SEMICOLON
  | TOK_LPAREN
  | TOK_RPAREN
  | TOK_LBRACE
  | TOK_RBRACE
  | TOK_LBRACKET
  | TOK_RBRACKET
  | TOK_DOT
  | TOK_DOUBLE_DOT         -- ..
  | TOK_COMMA
  | TOK_QUESTION           -- ?
  | TOK_PIPE               -- |
  | TOK_AT                 -- @
  | TOK_PLUS
  | TOK_MINUS
  | TOK_STAR
  | TOK_SLASH
  | TOK_PERCENT
  | TOK_EQUAL              -- ==
  | TOK_NOT_EQUAL          -- !=
  | TOK_LESS
  | TOK_GREATER
  | TOK_LESS_EQUAL
  | TOK_GREATER_EQUAL
  | TOK_ARROW              -- ->
  | TOK_UNDERSCORE         -- _
  | TOK_TRUE
  | TOK_FALSE
  | TOK_RETURN
  | TOK_BREAK
  | TOK_CONTINUE
  | TOK_LOOP
  | TOK_SOME
  | TOK_NONE
  | TOK_OK
  | TOK_ERR
  deriving DecidableEq, Repr

/-- Numeric value of a token kind in the C enum (used by the C parser's
range test `type >= TOK_EQUAL && type <= TOK_GREATER_EQUAL`). -/
def tokTypeNum : TokType → Nat
  | .TOK_EOF => 0
  | .TOK_IDENTIFIER => 1
  | .TOK_NUMBER => 2
  | .TOK_STRING => 3
  | .TOK_ASSIGN => 4
  | .TOK_COLON_COLON_ASSIGN => 5
  | .TOK_COLON_COLON => 6
  | .TOK_COLON => 7
  | .TOK_SEMICOLON => 8
  | .TOK_LPAREN => 9
  | .TOK_RPAREN => 10
  | .TOK_LBRACE => 11
  | .TOK_RBRACE => 12
  | .TOK_LBRACKET => 13
  | .TOK_RBRACKET => 14
  | .TOK_DOT => 15
  | .TOK_DOUBLE_DOT => 16
  | .TOK_COMMA => 17
  | .TOK_QUESTION => 18
  | .TOK_PIPE => 19
  | .TOK_AT => 20
  | .TOK_PLUS => 21
  | .TOK_MINUS => 22
  | .TOK_STAR => 23
  | .TOK_SLASH => 24
  | .TOK_PERCENT => 25
  | .TOK_EQUAL => 26
  | .TOK_NOT_EQUAL => 27
  | .TOK_LESS => 28
  | .TOK_GREATER => 29
  | .TOK_LESS_EQUAL => 30
  | .TOK_GREATER_EQUAL => 31
  | .TOK_ARROW => 32
  | .TOK_UNDERSCORE => 33
  | .TOK_TRUE => 34
  | .TOK_FALSE => 35
  | .TOK_RETURN => 36
  | .TOK_BREAK => 37
  | .TOK_CONTINUE => 38
  | .TOK_LOOP => 39
  | .TOK_SOME => 40
  | .TOK_NONE => 41
  | .TOK_OK => 42
  | .TOK_ERR => 43

/-- The `strstr`-style substring test (`strstr(hay, sub) != NULL`). -/
def strstrB (hay sub : List Char) : Bool :=
  match hay with
  | [] => sub.isEmpty
  | _ :: t => sub.isPrefixOf hay || strstrB t sub

/-- String version of `strstrB`. -/
def strContains (hay sub : String) : Bool :=
  strstrB hay.toList sub.toList

/-- A token of `zenc4.c`: kind plus optional textual payload
(`value` is NULL for punctuation/operator tokens). -/
structure Token where
  ttype : TokType
  value : Option String
  deriving DecidableEq, Repr

instance : Inhabited Token := ⟨⟨.TOK_EOF, none⟩⟩

/-! ## Lexer (`zenc4.c`, lines 349–596)

The C lexer walks a character buffer with a cursor; we consume a
`List Char` from the front, which is the same traversal. -/

/-- The `skip_whitespace` loop, with a flag for the `//` line-comment
inner loop.  The C's comment loop stops *at* the newline and lets the
outer whitespace test consume it; consuming it directly here is the same
traversal (positions are not modelled). -/
def skipWsAux : Bool → List Char → List Char
  | _, [] => []
  | true, c :: rest =>
    if c = '\n' then skipWsAux false rest else skipWsAux true rest
  | false, c :: rest =>
    if c = ' ' || c = '\t' || c = '\n' || c = '\r' then
      skipWsAux false rest
    else if c = '/' && rest.headD '\x00' = '/' then
      skipWsAux true rest
    else c :: rest
termination_by structural _ cs => cs

/-- The `skip_whitespace`: skips spaces, tabs, newlines, carriage returns
and `//` line comments. -/
def skip_whitespace (cs : List Char) : List Char :=
  skipWsAux false cs

/-- The `scan_identifier`: take the maximal run of identifier characters. -/
def scan_identifier (cs : List Char) : String × List Char :=
  (String.mk (cs.takeWhile isIdentChar), cs.dropWhile isIdentChar)

/-- The `scan_number`: digits, then at most one `.` that is followed by a
digit, then further digits. -/
def scan_number (cs : List Char) : String × List Char :=
  let ds := cs.takeWhile isDigitC
  let rest := cs.dropWhile isDigitC
  match rest with
  | '.' :: d :: rest2 =>
    if isDigitC d then
      let frac := (d :: rest2).takeWhile isDigitC
      (String.mk (ds ++ '.' :: frac), (d :: rest2).dropWhile isDigitC)
    else
      (String.mk ds, rest)
  | _ => (String.mk ds, rest)

/-- The body loop of zenc4's `scan_string`, applied to the characters after
the opening quote.  The loop only *skips over* backslash escapes (both the
backslash and the escaped character are retained verbatim in the payload,
which is a `memcpy` of the scanned region); it stops at an unescaped `"`
or at the end of input, and the closing quote is consumed. -/
def scan_string_body : List Char → List Char × List Char
  | [] => ([], [])
  | '"' :: rest => ([], rest)
  | '\\' :: [] => (['\\'], [])
  | '\\' :: c :: rest =>
    let (p, r) := scan_string_body rest
    ('\\' :: c :: p, r)
  | c :: rest =>
    let (p, r) := scan_string_body rest
    (c :: p, r)

/-- The `scan_string`: skip the opening quote, scan the body.  Returns the
(raw, undecoded) payload and the input after the closing quote. -/
def scan_string (cs : List Char) : String × List Char :=
  let (p, r) := scan_string_body (cs.drop 1)
  (String.mk p, r)

/-- Keyword table applied to a scanned identifier (`lexer_tokenize`,
lines 466–475). -/
def keywordType (id : String) : TokType :=
  if id = "true" then .TOK_TRUE
  else if id = "false" then .TOK_FALSE
  else if id = "return" then .TOK_RETURN
  else if id = "break" then .TOK_BREAK
  else if id = "continue" then .TOK_CONTINUE
  else if id = "loop" then .TOK_LOOP
  else if id = "Some" then .TOK_SOME
  else if id = "None" then .TOK_NONE
  else if id = "Ok" then .TOK_OK
  else if id = "Err" then .TOK_ERR
  else .TOK_IDENTIFIER

/-- One iteration of the `lexer_tokenize` loop body (after
`skip_whitespace`, on a non-empty input).  Returns the emitted token, if
any (`none` for a bare `!` and for the unknown-character error case, which
report/skip without emitting), and the remaining input. -/
def lexStep : List Char → Option Token × List Char
  | [] => (none, [])
  | c :: rest =>
    if isAlphaC c || c = '_' then
      let (id, r) := scan_identifier (c :: rest)
      (some ⟨keywordType id, some id⟩, r)
    else if isDigitC c then
      let (num, r) := scan_number (c :: rest)
      (some ⟨.TOK_NUMBER, some num⟩, r)
    else if c = '"' then
      -- the `${` interpolation check adds the same TOK_STRING either way
      let (str, r) := scan_string (c :: rest)
      (some ⟨.TOK_STRING, some str⟩, r)
    else
      match c with
      | '@' => (some ⟨.TOK_AT, none⟩, rest)
      | '=' =>
        match rest with
        | '=' :: rest2 => (some ⟨.TOK_EQUAL, none⟩, rest2)
        | _ => (some ⟨.TOK_ASSIGN, none⟩, rest)
      | ':' =>
        match rest with
        | ':' :: rest2 =>
          match rest2 with
          | '=' :: rest3 => (some ⟨.TOK_COLON_COLON_ASSIGN, none⟩, rest3)
          | _ => (some ⟨.TOK_COLON_COLON, none⟩, rest2)
        | _ => (some ⟨.TOK_COLON, none⟩, rest)
      | '.' =>
        match rest with
        | '.' :: rest2 => (some ⟨.TOK_DOUBLE_DOT, none⟩, rest2)
        | _ => (some ⟨.TOK_DOT, none⟩, rest)
      | '-' =>
        match rest with
        | '>' :: rest2 => (some ⟨.TOK_ARROW, none⟩, rest2)
        | _ => (some ⟨.TOK_MINUS, none⟩, rest)
      | '!' =>
        match rest with
        | '=' :: rest2 => (some ⟨.TOK_NOT_EQUAL, none⟩, rest2)
        | _ => (none, rest)   -- bare `!` emits nothing
      | '<' =>
        match rest with
        | '=' :: rest2 => (some ⟨.TOK_LESS_EQUAL, none⟩, rest2)
        | _ => (some ⟨.TOK_LESS, none⟩, rest)
      | '>' =>
        match rest with
        | '=' :: rest2 => (some ⟨.TOK_GREATER_EQUAL, none⟩, rest2)
        | _ => (some ⟨.TOK_GREATER, none⟩, rest)
      | '(' => (some ⟨.TOK_LPAREN, none⟩, rest)
      | ')' => (some ⟨.TOK_RPAREN, none⟩, rest)
      | '{' => (some ⟨.TOK_LBRACE, none⟩, rest)
      | '}' => (some ⟨.TOK_RBRACE, none⟩, rest)
      | '[' => (some ⟨.TOK_LBRACKET, none⟩, rest)
      | ']' => (some ⟨.TOK_RBRACKET, none⟩, rest)
      | ',' => (some ⟨.TOK_COMMA, none⟩, rest)
      | ';' => (some ⟨.TOK_SEMICOLON, none⟩, rest)
      | '?' => (some ⟨.TOK_QUESTION, none⟩, rest)
      | '|' => (some ⟨.TOK_PIPE, none⟩, rest)
      | '+' => (some ⟨.TOK_PLUS, none⟩, rest)
      | '*' => (some ⟨.TOK_STAR, none⟩, rest)
      | '/' => (some ⟨.TOK_SLASH, none⟩, rest)
      | '%' => (some ⟨.TOK_PERCENT, none⟩, rest)
      | '_' => (some ⟨.TOK_UNDERSCORE, none⟩, rest)   -- unreachable: caught by the identifier branch
      | _ => (none, rest)    -- error("Unexpected character"), skipped

/-- The `lexer_tokenize` main loop, fuel-indexed (each iteration consumes
at least one character, so `cs.length` fuel always suffices). -/
def tokenizeAux : Nat → List Char → List Token
  | 0, _ => []
  | fuel + 1, cs =>
    let cs := skip_whitespace cs
    match cs with
    | [] => []
    | _ :: _ =>
      match lexStep cs with
      | (some t, r) => t :: tokenizeAux fuel r
      | (none, r) => tokenizeAux fuel r

/-- The `lexer_tokenize`: run the loop and append the terminating EOF token. -/
def lexer_tokenize (cs : List Char) : List Token :=
  tokenizeAux (cs.length + 1) cs ++ [⟨.TOK_EOF, none⟩]

/-! ## The string-scanning loop of `zenc3.c` (`tokenize`, lines 353–394)

Unlike zenc4's `scan_string`, this loop *decodes* backslash escapes into
the payload buffer.  `advance` at the end of the buffer returns `'\0'`
without moving, so a trailing lone backslash appends `'\0'` (the default
switch case) and the loop then exits. -/

/-- The escape table of zenc3's string scanner (`switch (escaped)`). -/
def zenc3_escape (e : Char) : Char :=
  match e with
  | 'n' => '\n'
  | 't' => '\t'
  | 'r' => '\r'
  | '\\' => '\\'
  | '"' => '"'
  | e => e

/-- zenc3's string-body loop, applied to the characters after the opening
quote.  Returns the decoded payload and the input after the closing
quote. -/
def zenc3_scan_string_body : List Char → List Char × List Char
  | [] => ([], [])
  | '"' :: rest => ([], rest)
  | '\\' :: [] => (['\x00'], [])
  | '\\' :: e :: rest =>
    let (p, r) := zenc3_scan_string_body rest
    (zenc3_escape e :: p, r)
  | c :: rest =>
    let (p, r) := zenc3_scan_string_body rest
    (c :: p, r)

/-! Spec-side definitions for the string-escape claim, written from the
specification's words ("Inside it, `\` introduces an escape (`n`, `t`,
`r`, `\`, `"`, any other → literal).  The string's textual payload is the
*decoded* contents."). -/

/-- Spec-side escape decoding table. -/
def specEscape (e : Char) : Char :=
  match e with
  | 'n' => '\n'
  | 't' => '\t'
  | 'r' => '\r'
  | '\\' => '\\'
  | '"' => '"'
  | e => e

/-- Spec-side decoded payload of the region between the quotes: decode
each escape, stop at the (unescaped) closing quote. -/
def specDecode : List Char → List Char
  | [] => []
  | '"' :: _ => []
  | '\\' :: [] => []
  | '\\' :: e :: rest => specEscape e :: specDecode rest
  | c :: rest => c :: specDecode rest

/-- Spec-side well-formedness of a string-literal body: reading from just
after the opening quote, an unescaped closing quote is eventually
reached. -/
def properlyTerminated : List Char → Bool
  | [] => false
  | '"' :: _ => true
  | '\\' :: [] => false
  | '\\' :: _ :: rest => properlyTerminated rest
  | _ :: rest => properlyTerminated rest

/-! ## AST (`zenc4.c`, `struct ASTNode`)

One inductive mirroring the C tagged union, in enum declaration order.
Every `ASTNode*` child may be NULL in C, so child fields are `Option AST`;
argument arrays whose entries can be NULL (they receive raw results of
`parse_expression`) are `List (Option AST)`.  Statement arrays are only
appended to under an `if (stmt)` non-NULL guard, so they are `List AST`.
Variants never constructed by zenc4 (`destructure`, `unaryOp`,
`typeAlias`, `traitDef`, `implBlock`) are carried as bare constructors so
that `astTypeNum` reproduces the C enum numbering used in the emitter's
fallback comments. -/
inductive AST where
  | program (stmts : List AST)
  | importDecl (names : List String) (src : Option AST)
  | destructure
  | varDecl (name : String) (typeName : Option String) (value : Option AST)
      (isMutable : Bool) (isForwardDecl : Bool)
  | assignment (target : Option AST) (value : Option AST)
  | functionDecl (name : String) (paramNames : List String)
      (paramTypes : List (Option String)) (paramMut : List Bool)
      (returnType : String) (body : Option AST)
  | callNode (func : Option AST) (args : List (Option AST))
  | identNode (value : String)
  | numberNode (value : String)
  | stringNode (value : String)
  | stringInterp (value : String)
  | boolNode (value : Bool)
  | binaryOp (op : String) (left : Option AST) (right : Option AST)
  | unaryOp
  | blockNode (stmts : List AST)
  | patternMatch (scrut : Option AST) (arms : List AST)
  | patternArm (pat : Option AST) (body : Option AST)
  | returnNode (value : Option AST)
  | breakNode
  | continueNode
  | loopNode (cond : Option AST) (body : Option AST)
  | rangeNode (first : Option AST) (last : Option AST) (step : Option AST)
  | structDef (name : String) (fieldNames : List String)
      (fieldTypes : List (Option String)) (fieldMut : List Bool)
      (fieldDefaults : List (Option AST))
  | structLit (typeName : String) (fieldNames : List String)
      (fields : List (Option AST))
  | memberAccess (obj : Option AST) (member : String)
  | optionSome (value : Option AST)
  | optionNone
  | resultOk (value : Option AST)
  | resultErr (value : Option AST)
  | atSymbol (module : String) (path : Option String)
  | methodCall (obj : Option AST) (method : String) (args : List (Option AST))
  | enumDef (name : String) (variants : List String)
  | typeAlias
  | traitDef
  | implBlock
  | deferNode (expr : Option AST)

/-- The C enum value of an AST node kind (printed by the emitter's
"Unknown … type %d" fallback comments). -/
def astTypeNum : AST → Nat
  | .program _ => 0
  | .importDecl _ _ => 1
  | .destructure => 2
  | .varDecl _ _ _ _ _ => 3
  | .assignment _ _ => 4
  | .functionDecl _ _ _ _ _ _ => 5
  | .callNode _ _ => 6
  | .identNode _ => 7
  | .numberNode _ => 8
  | .stringNode _ => 9
  | .stringInterp _ => 10
  | .boolNode _ => 11
  | .binaryOp _ _ _ => 12
  | .unaryOp => 13
  | .blockNode _ => 14
  | .patternMatch _ _ => 15
  | .patternArm _ _ => 16
  | .returnNode _ => 17
  | .breakNode => 18
  | .continueNode => 19
  | .loopNode _ _ => 20
  | .rangeNode _ _ _ => 21
  | .structDef _ _ _ _ _ => 22
  | .structLit _ _ _ => 23
  | .memberAccess _ _ => 24
  | .optionSome _ => 25
  | .optionNone => 26
  | .resultOk _ => 27
  | .resultErr _ => 28
  | .atSymbol _ _ => 29
  | .methodCall _ _ _ => 30
  | .enumDef _ _ => 31
  | .typeAlias => 32
  | .traitDef => 33
  | .implBlock => 34
  | .deferNode _ => 35

/-! ## Parser (`zenc4.c`, lines 602–1494)

The parser keeps the token vector and a mutable cursor; `error(...)`
reports are modelled by an error counter (their text and positions are
diagnostics only).  All parse functions are fuel-indexed: the fuel bounds
recursion depth and loop iterations and is irrelevant once large enough. -/

/-- Parser state: token vector, cursor (`p->current`), error counter. -/
structure PState where
  tokens : List Token
  cur : Nat
  errs : Nat

/-- Index read by `current_token`: the cursor clamped to the last token.
(The C computes `token_count - 1` on `size_t`; the lexer guarantees
`token_count ≥ 1`, so the subtraction never wraps.) -/
def currentIdx (count cur : Nat) : Nat :=
  if cur < count then cur else count - 1

/-- Index read by `peek_token`: cursor + offset clamped to the last token. -/
def peekIdx (count cur off : Nat) : Nat :=
  if cur + off < count then cur + off else count - 1

/-- Cursor update of `advanceParser`: stop at the last token. -/
def advanceCur (count cur : Nat) : Nat :=
  if cur < count - 1 then cur + 1 else cur

/-- The function `current_token`. -/
def current_token (p : PState) : Token :=
  p.tokens.getD (currentIdx p.tokens.length p.cur) default

/-- The function `peek_token`. -/
def peek_token (p : PState) (off : Nat) : Token :=
  p.tokens.getD (peekIdx p.tokens.length p.cur off) default

/-- The cursor-advance function of the parser (C name: advance underscore parser). -/
def advanceParser (p : PState) : PState :=
  { p with cur := advanceCur p.tokens.length p.cur }

/-- An `error(...)` report (text/position are diagnostics only). -/
def report (p : PState) : PState :=
  { p with errs := p.errs + 1 }

/-- The `match_token`: advance on success. -/
def match_token (p : PState) (t : TokType) : Bool × PState :=
  if (current_token p).ttype = t then (true, advanceParser p) else (false, p)

/-- The `expect_token`: advance on success, report on failure. -/
def expect_token (p : PState) (t : TokType) : Bool × PState :=
  if (current_token p).ttype ≠ t then (false, report p)
  else (true, advanceParser p)

/-- The operand test of the heuristic of `parse_statement`:
`node && node->type == AST_IDENTIFIER && strcmp(node->value, name) == 0`. -/
def isIdentNamed (o : Option AST) (name : String) : Bool :=
  match o with
  | some (AST.identNode v) => v = name
  | _ => false

/-- The assignment-vs-declaration heuristic and node construction of
`parse_statement` for `name = value` (zenc4.c lines 1411–1449): the
statement is an assignment iff the name is a single character or contains
an underscore, *and* the value is a binary expression with the identifier
`name` as its left or right operand; otherwise it is an immutable
variable declaration. -/
def is_likely_assignment (name : String) (value : Option AST) : Bool :=
  (name.length = 1 || name.toList.contains '_') &&
  (match value with
   | some (AST.binaryOp _ l r) => isIdentNamed l name || isIdentNamed r name
   | _ => false)

/-- Node built by `parse_statement` for `name = value` (non-function
case). -/
def classifyAssign (name : String) (value : Option AST) : AST :=
  if is_likely_assignment name value then
    AST.assignment (some (AST.identNode name)) value
  else
    AST.varDecl name none value false false

/-- The `switch (op_tok->type)` of `parse_comparison`. -/
def cmpOp (t : TokType) : String :=
  match t with
  | .TOK_EQUAL => "=="
  | .TOK_NOT_EQUAL => "!="
  | .TOK_LESS => "<"
  | .TOK_GREATER => ">"
  | .TOK_LESS_EQUAL => "<="
  | .TOK_GREATER_EQUAL => ">="
  | _ => "?"

mutual

/-- The `parse_at_symbol`: `@module(.path)*`. -/
def parse_at_symbol : Nat → PState → Option AST × PState
  | 0, p => (none, p)
  | f + 1, p =>
    let (_, p) := expect_token p .TOK_AT
    if (current_token p).ttype ≠ .TOK_IDENTIFIER then
      (none, report p)
    else
      let module := (current_token p).value.getD ""
      let p := advanceParser p
      let (path, p) := atSymbolDots f none p
      (some (.atSymbol module path), p)
termination_by structural f _ => f

/-- The `while (match_token(p, TOK_DOT))` loop of `parse_at_symbol`,
accumulating the dotted path. -/
def atSymbolDots : Nat → Option String → PState → Option String × PState
  | 0, path, p => (path, p)
  | f + 1, path, p =>
    let (m, p) := match_token p .TOK_DOT
    if m then
      if (current_token p).ttype ≠ .TOK_IDENTIFIER then
        (path, report p)
      else
        let v := (current_token p).value.getD ""
        let path := some (match path with | some s => s ++ "." ++ v | none => v)
        atSymbolDots f path (advanceParser p)
    else (path, p)
termination_by structural f _ _ => f

/-- The `parse_destructure_import`: `{ names } = @…`.  (Always returns a
node in the C code.) -/
def parse_destructure_import : Nat → PState → Option AST × PState
  | 0, p => (none, p)
  | f + 1, p =>
    let (_, p) := expect_token p .TOK_LBRACE
    let (names, p) := importNames f [] p
    let (_, p) := expect_token p .TOK_RBRACE
    let (_, p) := expect_token p .TOK_ASSIGN
    let (src, p) := parse_at_symbol f p
    (some (.importDecl names src), p)
termination_by structural f _ => f

/-- The name-collection loop of `parse_destructure_import` (C capacity:
10 names). -/
def importNames : Nat → List String → PState → List String × PState
  | 0, acc, p => (acc, p)
  | f + 1, acc, p =>
    if (current_token p).ttype = .TOK_RBRACE then (acc, p)
    else if (current_token p).ttype ≠ .TOK_IDENTIFIER then (acc, report p)
    else
      let acc := acc ++ [(current_token p).value.getD ""]
      let p := advanceParser p
      let (m, p) := match_token p .TOK_COMMA
      if m then importNames f acc p else (acc, p)
termination_by structural f _ _ => f

/-- The function `parse_primary`. -/
def parse_primary : Nat → PState → Option AST × PState
  | 0, p => (none, p)
  | f + 1, p =>
    let tok := current_token p
    match tok.ttype with
    | .TOK_NUMBER => (some (.numberNode (tok.value.getD "")), advanceParser p)
    | .TOK_STRING =>
      let v := tok.value.getD ""
      -- the interpolation marker check (strstr for a dollar-brace pair)
      -- keeps the payload as-is either way
      if strContains v "$\x7b" then
        (some (.stringInterp v), advanceParser p)
      else
        (some (.stringNode v), advanceParser p)
    | .TOK_TRUE => (some (.boolNode true), advanceParser p)
    | .TOK_FALSE => (some (.boolNode false), advanceParser p)
    | .TOK_IDENTIFIER =>
      let name := tok.value.getD ""
      let p := advanceParser p
      if (current_token p).ttype = .TOK_LBRACE then
        -- struct literal `Name { field: expr, … }` (C capacity: 10 fields)
        let p := advanceParser p
        let (fns, fs, p) := structLitLoop f [] [] p
        let (_, p) := expect_token p .TOK_RBRACE
        (some (.structLit name fns fs), p)
      else
        (some (.identNode name), p)
    | .TOK_AT => parse_at_symbol f p
    | .TOK_LPAREN =>
      let p := advanceParser p
      let (first, p) := parse_expression f p
      if (current_token p).ttype = .TOK_DOUBLE_DOT then
        let p := advanceParser p
        let (e, p) := parse_expression f p
        let (_, p) := expect_token p .TOK_RPAREN
        if (current_token p).ttype = .TOK_DOT &&
           (peek_token p 1).ttype = .TOK_IDENTIFIER &&
           (peek_token p 1).value = some "step" then
          let p := advanceParser (advanceParser p)
          let (_, p) := expect_token p .TOK_LPAREN
          let (st, p) := parse_expression f p
          let (_, p) := expect_token p .TOK_RPAREN
          (some (.rangeNode first e st), p)
        else
          (some (.rangeNode first e none), p)
      else
        let (_, p) := expect_token p .TOK_RPAREN
        (first, p)
    | .TOK_LOOP =>
      let p := advanceParser p
      let (_, p) := expect_token p .TOK_LPAREN
      if (current_token p).ttype = .TOK_RPAREN then
        let p := advanceParser p
        let (b, p) := parse_block f p
        (some (.loopNode none b), p)
      else
        let (c, p) := parse_expression f p
        let (_, p) := expect_token p .TOK_RPAREN
        let (b, p) := parse_block f p
        (some (.loopNode c b), p)
    | .TOK_SOME =>
      let p := advanceParser p
      let (_, p) := expect_token p .TOK_LPAREN
      let (v, p) := parse_expression f p
      let (_, p) := expect_token p .TOK_RPAREN
      (some (.optionSome v), p)
    | .TOK_NONE => (some .optionNone, advanceParser p)
    | .TOK_OK =>
      let p := advanceParser p
      let (_, p) := expect_token p .TOK_LPAREN
      let (v, p) := parse_expression f p
      let (_, p) := expect_token p .TOK_RPAREN
      (some (.resultOk v), p)
    | .TOK_ERR =>
      let p := advanceParser p
      let (_, p) := expect_token p .TOK_LPAREN
      let (v, p) := parse_expression f p
      let (_, p) := expect_token p .TOK_RPAREN
      (some (.resultErr v), p)
    | _ =>
      -- error("Unexpected token in primary expression"), skip
      (none, advanceParser (report p))
termination_by structural f _ => f

/-- The field loop of the struct-literal case of `parse_primary`. -/
def structLitLoop : Nat → List String → List (Option AST) → PState →
    List String × List (Option AST) × PState
  | 0, fns, fs, p => (fns, fs, p)
  | f + 1, fns, fs, p =>
    if (current_token p).ttype = .TOK_RBRACE then (fns, fs, p)
    else if (current_token p).ttype ≠ .TOK_IDENTIFIER then (fns, fs, report p)
    else
      let fname := (current_token p).value.getD ""
      let p := advanceParser p
      let (_, p) := expect_token p .TOK_COLON
      let (fv, p) := parse_expression f p
      let fns := fns ++ [fname]
      let fs := fs ++ [fv]
      let (m, p) := match_token p .TOK_COMMA
      if m then structLitLoop f fns fs p else (fns, fs, p)
termination_by structural f _ _ _ => f

/-- The function `parse_postfix`. -/
def parse_postfix : Nat → PState → Option AST × PState
  | 0, p => (none, p)
  | f + 1, p =>
    let (left, p) := parse_primary f p
    postfixLoop f left p
termination_by structural f _ => f

/-- The `while (true)` postfix chain of `parse_postfix`.  NOTE: when
`left` is NULL the C reads `left->type` in the call test, which is
undefined behaviour; it is modelled as a failed test. -/
def postfixLoop : Nat → Option AST → PState → Option AST × PState
  | 0, left, p => (left, p)
  | f + 1, left, p =>
    let (m, p') := match_token p .TOK_DOT
    if m then
      let tok := current_token p'
      if tok.ttype ≠ .TOK_IDENTIFIER then (left, report p')
      else
        let member := tok.value.getD ""
        let p' := advanceParser p'
        if (current_token p').ttype = .TOK_LPAREN then
          let p' := advanceParser p'
          let (args, p') := argsLoop f [] p'
          let (_, p') := expect_token p' .TOK_RPAREN
          postfixLoop f (some (.methodCall left member args)) p'
        else
          postfixLoop f (some (.memberAccess left member)) p'
    else if (current_token p).ttype = .TOK_LPAREN &&
            (match left with | some (AST.identNode _) => true | _ => false) then
      let p := advanceParser p
      let (args, p) := argsLoop f [] p
      let (_, p) := expect_token p .TOK_RPAREN
      postfixLoop f (some (.callNode left args)) p
    else (left, p)
termination_by structural f _ _ => f

/-- The argument loop shared (by duplication, in the C) between method
calls and calls: `while current != RPAREN { args += parse_expression;
if !match COMMA break }` (C capacity: 10 arguments). -/
def argsLoop : Nat → List (Option AST) → PState → List (Option AST) × PState
  | 0, acc, p => (acc, p)
  | f + 1, acc, p =>
    if (current_token p).ttype = .TOK_RPAREN then (acc, p)
    else
      let (a, p) := parse_expression f p
      let acc := acc ++ [a]
      let (m, p) := match_token p .TOK_COMMA
      if m then argsLoop f acc p else (acc, p)
termination_by structural f _ _ => f

/-- The function `parse_multiplicative`. -/
def parse_multiplicative : Nat → PState → Option AST × PState
  | 0, p => (none, p)
  | f + 1, p =>
    let (left, p) := parse_postfix f p
    mulLoop f left p
termination_by structural f _ => f

/-- The `* / %` loop of `parse_multiplicative`. -/
def mulLoop : Nat → Option AST → PState → Option AST × PState
  | 0, left, p => (left, p)
  | f + 1, left, p =>
    let t := (current_token p).ttype
    if t = .TOK_STAR || t = .TOK_SLASH || t = .TOK_PERCENT then
      let op := if t = .TOK_STAR then "*" else if t = .TOK_SLASH then "/" else "%"
      let p := advanceParser p
      let (right, p) := parse_postfix f p
      mulLoop f (some (.binaryOp op left right)) p
    else (left, p)
termination_by structural f _ _ => f

/-- The function `parse_additive`. -/
def parse_additive : Nat → PState → Option AST × PState
  | 0, p => (none, p)
  | f + 1, p =>
    let (left, p) := parse_multiplicative f p
    addLoop f left p
termination_by structural f _ => f

/-- The `+ -` loop of `parse_additive`. -/
def addLoop : Nat → Option AST → PState → Option AST × PState
  | 0, left, p => (left, p)
  | f + 1, left, p =>
    let t := (current_token p).ttype
    if t = .TOK_PLUS || t = .TOK_MINUS then
      let op := if t = .TOK_PLUS then "+" else "-"
      let p := advanceParser p
      let (right, p) := parse_multiplicative f p
      addLoop f (some (.binaryOp op left right)) p
    else (left, p)
termination_by structural f _ _ => f

/-- The function `parse_comparison`. -/
def parse_comparison : Nat → PState → Option AST × PState
  | 0, p => (none, p)
  | f + 1, p =>
    let (left, p) := parse_additive f p
    cmpLoop f left p
termination_by structural f _ => f

/-- The comparison loop; the C test is the enum-range check
`type >= TOK_EQUAL && type <= TOK_GREATER_EQUAL` (values 26–31). -/
def cmpLoop : Nat → Option AST → PState → Option AST × PState
  | 0, left, p => (left, p)
  | f + 1, left, p =>
    let t := (current_token p).ttype
    if 26 ≤ tokTypeNum t && tokTypeNum t ≤ 31 then
      let op := cmpOp t
      let p := advanceParser p
      let (right, p) := parse_additive f p
      cmpLoop f (some (.binaryOp op left right)) p
    else (left, p)
termination_by structural f _ _ => f

/-- The `parse_pattern_match`: a comparison, optionally followed by `?` and
either a single brace block (boolean shorthand, pattern absent) or
`|`-introduced arms (C capacity: 10 arms). -/
def parse_pattern_match : Nat → PState → Option AST × PState
  | 0, p => (none, p)
  | f + 1, p =>
    let (e, p) := parse_comparison f p
    let (m, p) := match_token p .TOK_QUESTION
    if m then
      if (current_token p).ttype = .TOK_LBRACE then
        let (b, p) := parse_block f p
        (some (.patternMatch e [.patternArm none b]), p)
      else
        let (arms, p) := patternArms f [] p
        (some (.patternMatch e arms), p)
    else (e, p)
termination_by structural f _ => f

/-- The `while (match_token(p, TOK_PIPE))` arm loop of
`parse_pattern_match`.  On a token that is not a valid pattern start the
C reports an error and leaves `arm->pattern` uninitialized; modelled as
an absent pattern. -/
def patternArms : Nat → List AST → PState → List AST × PState
  | 0, acc, p => (acc, p)
  | f + 1, acc, p =>
    let (m, p) := match_token p .TOK_PIPE
    if m then
      let t := (current_token p).ttype
      let (pat, p) :=
        if t = .TOK_IDENTIFIER || t = .TOK_TRUE || t = .TOK_FALSE ||
           t = .TOK_UNDERSCORE then
          parse_primary f p
        else
          ((none : Option AST), report p)
      let (b, p) := parse_block f p
      patternArms f (acc ++ [.patternArm pat b]) p
    else (acc, p)
termination_by structural f _ _ => f

/-- The `parse_expression` delegates to `parse_pattern_match`. -/
def parse_expression : Nat → PState → Option AST × PState
  | 0, p => (none, p)
  | f + 1, p => parse_pattern_match f p
termination_by structural f _ => f

/-- The `parse_function_params`: parameter list between parentheses (C
capacity: 10 parameters).  Returns names, types, mutability flags. -/
def parse_function_params : Nat → PState →
    List String × List (Option String) × List Bool × PState
  | 0, p => ([], [], [], p)
  | f + 1, p =>
    let (_, p) := expect_token p .TOK_LPAREN
    let (ns, ts, ms, p) := paramsLoop f [] [] [] p
    let (_, p) := expect_token p .TOK_RPAREN
    (ns, ts, ms, p)
termination_by structural f _ => f

/-- The parameter loop of `parse_function_params`.  Slots whose name or
type the C never assigns are left uninitialized there; modelled as
`""`/`none`. -/
def paramsLoop : Nat → List String → List (Option String) → List Bool → PState →
    List String × List (Option String) × List Bool × PState
  | 0, ns, ts, ms, p => (ns, ts, ms, p)
  | f + 1, ns, ts, ms, p =>
    if (current_token p).ttype = .TOK_RPAREN then (ns, ts, ms, p)
    else if (current_token p).ttype = .TOK_IDENTIFIER then
      let nm := (current_token p).value.getD ""
      let p := advanceParser p
      let (mcc, p) := match_token p .TOK_COLON_COLON
      if mcc then
        let (ty, p) :=
          if (current_token p).ttype = .TOK_IDENTIFIER then
            ((some ((current_token p).value.getD "") : Option String), advanceParser p)
          else ((none : Option String), p)
        let (m2, p) := match_token p .TOK_COMMA
        if m2 then paramsLoop f (ns ++ [nm]) (ts ++ [ty]) (ms ++ [true]) p
        else (ns ++ [nm], ts ++ [ty], ms ++ [true], p)
      else
        let (mc, p) := match_token p .TOK_COLON
        if mc then
          let (ty, p) :=
            if (current_token p).ttype = .TOK_IDENTIFIER then
              ((some ((current_token p).value.getD "") : Option String), advanceParser p)
            else ((none : Option String), p)
          let (m2, p) := match_token p .TOK_COMMA
          if m2 then paramsLoop f (ns ++ [nm]) (ts ++ [ty]) (ms ++ [false]) p
          else (ns ++ [nm], ts ++ [ty], ms ++ [false], p)
        else
          -- untyped parameter: type NULL, continue with the next comma
          let (m2, p) := match_token p .TOK_COMMA
          if m2 then paramsLoop f (ns ++ [nm]) (ts ++ [none]) (ms ++ [false]) p
          else (ns ++ [nm], ts ++ [none], ms ++ [false], p)
    else
      -- not an identifier: the C appends a fully uninitialized slot
      let (m2, p) := match_token p .TOK_COMMA
      if m2 then paramsLoop f (ns ++ [""]) (ts ++ [none]) (ms ++ [false]) p
      else (ns ++ [""], ts ++ [none], ms ++ [false], p)
termination_by structural f _ _ _ _ => f

/-- The `parse_block`: `{ statements }`.  NOTE: zenc4's statement loop has no
iteration cap; the C stores into a `malloc(sizeof(ASTNode*) * 100)`
buffer with an unchecked index. -/
def parse_block : Nat → PState → Option AST × PState
  | 0, p => (none, p)
  | f + 1, p =>
    let (_, p) := expect_token p .TOK_LBRACE
    let (stmts, p) := blockLoop f [] p
    let (_, p) := expect_token p .TOK_RBRACE
    (some (.blockNode stmts), p)
termination_by structural f _ => f

/-- The statement loop of zenc4's `parse_block` (no cap; C buffer
capacity is 100 statement pointers). -/
def blockLoop : Nat → List AST → PState → List AST × PState
  | 0, acc, p => (acc, p)
  | f + 1, acc, p =>
    if (current_token p).ttype ≠ .TOK_RBRACE &&
       (current_token p).ttype ≠ .TOK_EOF then
      let (st, p) := parse_statement f p
      let acc := match st with | some s => acc ++ [s] | none => acc
      blockLoop f acc p
    else (acc, p)
termination_by structural f _ _ => f

/-- The field loop of the struct-definition case of `parse_statement`
(C capacity: 20 fields).  A field without `:`/`::` or without a type
name leaves the C slot uninitialized; modelled as `false`/`none`. -/
def structDefFields : Nat → List String → List (Option String) → List Bool →
    List (Option AST) → PState →
    List String × List (Option String) × List Bool × List (Option AST) × PState
  | 0, fns, fts, fms, fds, p => (fns, fts, fms, fds, p)
  | f + 1, fns, fts, fms, fds, p =>
    if (current_token p).ttype = .TOK_RBRACE then (fns, fts, fms, fds, p)
    else if (current_token p).ttype ≠ .TOK_IDENTIFIER then
      (fns, fts, fms, fds, report p)
    else
      let fname := (current_token p).value.getD ""
      let p := advanceParser p
      let (mcc, p) := match_token p .TOK_COLON_COLON
      let (fmut, p) :=
        if mcc then (true, p)
        else
          let (mc, p) := match_token p .TOK_COLON
          if mc then (false, p) else (false, report p)
      let (fty, p) :=
        if (current_token p).ttype = .TOK_IDENTIFIER then
          ((some ((current_token p).value.getD "") : Option String), advanceParser p)
        else ((none : Option String), p)
      let (mA, p) := match_token p .TOK_ASSIGN
      let (fdef, p) :=
        if mA then parse_expression f p else ((none : Option AST), p)
      let fns := fns ++ [fname]
      let fts := fts ++ [fty]
      let fms := fms ++ [fmut]
      let fds := fds ++ [fdef]
      let (m2, p) := match_token p .TOK_COMMA
      if m2 then structDefFields f fns fts fms fds p
      else (fns, fts, fms, fds, p)
termination_by structural f _ _ _ _ _ => f

/-- The variant loop of the enum-definition case of `parse_statement`
(C capacity: 10 variants). -/
def enumVariants : Nat → List String → PState → List String × PState
  | 0, acc, p => (acc, p)
  | f + 1, acc, p =>
    let (m, p) := match_token p .TOK_PIPE
    if m then
      if (current_token p).ttype ≠ .TOK_IDENTIFIER then (acc, report p)
      else
        let v := (current_token p).value.getD ""
        enumVariants f (acc ++ [v]) (advanceParser p)
    else (acc, p)
termination_by structural f _ _ => f

/-- The function `parse_statement`. -/
def parse_statement : Nat → PState → Option AST × PState
  | 0, p => (none, p)
  | f + 1, p =>
    let tok := current_token p
    match tok.ttype with
    | .TOK_RETURN =>
      let p := advanceParser p
      let (v, p) := parse_expression f p
      (some (.returnNode v), p)
    | .TOK_BREAK => (some .breakNode, advanceParser p)
    | .TOK_CONTINUE => (some .continueNode, advanceParser p)
    | _ =>
      if tok.ttype = .TOK_AT &&
         (peek_token p 1).ttype = .TOK_IDENTIFIER &&
         (peek_token p 1).value = some "this" &&
         (peek_token p 2).ttype = .TOK_DOT &&
         (peek_token p 3).ttype = .TOK_IDENTIFIER &&
         (peek_token p 3).value = some "defer" then
        -- `@this.defer(expr)`
        let p := advanceParser (advanceParser (advanceParser (advanceParser p)))
        let (_, p) := expect_token p .TOK_LPAREN
        let (e, p) := parse_expression f p
        let (_, p) := expect_token p .TOK_RPAREN
        (some (.deferNode e), p)
      else if tok.ttype = .TOK_LBRACE then
        -- destructuring import, else restore and parse a block
        -- (`parse_destructure_import` never returns NULL in the C, so
        -- the restore path is dead there)
        let savePos := p.cur
        let (imp, p') := parse_destructure_import f p
        match imp with
        | some node => (some node, p')
        | none => parse_block f { p' with cur := savePos }
      else if tok.ttype = .TOK_IDENTIFIER then
        let name := tok.value.getD ""
        let p := advanceParser p
        let (mCol, p) := match_token p .TOK_COLON
        if mCol then
          if (current_token p).ttype = .TOK_LBRACE then
            -- struct definition `Name: { fields }`
            let p := advanceParser p
            let (fns, fts, fms, fds, p) := structDefFields f [] [] [] [] p
            let (_, p) := expect_token p .TOK_RBRACE
            (some (.structDef name fns fts fms fds), p)
          else if (current_token p).ttype = .TOK_IDENTIFIER then
            -- enum definition `Name: V1 | V2 | …`
            let v0 := (current_token p).value.getD ""
            let p := advanceParser p
            let (vs, p) := enumVariants f [v0] p
            (some (.enumDef name vs), p)
          else
            -- typed variable declaration; in this branch the current
            -- token is not an identifier, so the C's type parse cannot
            -- fire and `type_name` stays uninitialized (modelled `none`)
            let (mA, p) := match_token p .TOK_ASSIGN
            if mA then
              let (v, p) := parse_expression f p
              (some (.varDecl name none v false false), p)
            else
              (some (.varDecl name none none false true), p)
        else
          let (mCC, p) := match_token p .TOK_COLON_COLON
          if mCC then
            -- `x :: type` / `x :: type = value` / bare `x ::`
            if (current_token p).ttype = .TOK_IDENTIFIER then
              let ty := (current_token p).value.getD ""
              let p := advanceParser p
              let (mA, p) := match_token p .TOK_ASSIGN
              if mA then
                let (v, p) := parse_expression f p
                (some (.varDecl name (some ty) v true false), p)
              else
                (some (.varDecl name (some ty) none true true), p)
            else
              (some (.varDecl name none none true true), p)
          else
            let (mCCA, p) := match_token p .TOK_COLON_COLON_ASSIGN
            if mCCA then
              -- `x ::= value`
              let (v, p) := parse_expression f p
              (some (.varDecl name none v true false), p)
            else
              let (mA, p) := match_token p .TOK_ASSIGN
              if mA then
                if (current_token p).ttype = .TOK_LPAREN then
                  -- function declaration `name = (params) ret { body }`
                  let (pns, pts, pms, p) := parse_function_params f p
                  let (rt, p) :=
                    if (current_token p).ttype = .TOK_IDENTIFIER then
                      ((current_token p).value.getD "", advanceParser p)
                    else ("void", p)
                  let (b, p) := parse_block f p
                  (some (.functionDecl name pns pts pms rt b), p)
                else
                  -- `name = value`: assignment-vs-declaration heuristic
                  let (v, p) := parse_expression f p
                  (some (classifyAssign name v), p)
              else if (current_token p).ttype = .TOK_ASSIGN then
                -- dead in the C: TOK_ASSIGN would have been consumed by
                -- the match_token above
                let p := advanceParser p
                let (v, p) := parse_expression f p
                (some (.assignment (some (.identNode name)) v), p)
              else
                -- backtrack and parse as an expression statement
                parse_expression f { p with cur := p.cur - 1 }
      else
        parse_expression f p
termination_by structural f _ => f

/-- The `parse_program` (C capacity: 1000 top-level statements). -/
def parse_program : Nat → PState → Option AST × PState
  | 0, p => (none, p)
  | f + 1, p =>
    let (stmts, p) := programLoop f [] p
    (some (.program stmts), p)
termination_by structural f _ => f

/-- The top-level statement loop of `parse_program`. -/
def programLoop : Nat → List AST → PState → List AST × PState
  | 0, acc, p => (acc, p)
  | f + 1, acc, p =>
    if (current_token p).ttype ≠ .TOK_EOF then
      let (st, p) := parse_statement f p
      let acc := match st with | some s => acc ++ [s] | none => acc
      programLoop f acc p
    else (acc, p)
termination_by structural f _ _ => f

end

/-! ## Emitter (`zenc4.c`, lines 1500–1934)

`generate_expression`/`generate_statement` write text to a `FILE*` while
carrying an indentation level and an `in_main` flag in the `CodeGen`
struct.  The indentation level is incremented and decremented in matching
pairs, so it is passed as a parameter; the `in_main` flag is *only ever
read* by `generate_program`'s final check (no emitted text depends on
it), so the text and the flag evolution are modelled by two parallel
function families, `genExpr`/`genStmt` for the text and
`inMainExpr`/`inMainStmt` for the flag. -/

theorem list_sizeOf_pos {α : Type} [SizeOf α] (l : List α) : 0 < sizeOf l := by
  cases l <;> simp

/-- The `indent(gen)`: four spaces per level. -/
def indentStr (ind : Nat) : String :=
  String.join (List.replicate ind "    ")

/-- Comma-joined list with the C's `if (i > 0)` separator test. -/
def joinComma : Bool → List String → String
  | _, [] => ""
  | first, s :: rest => (if first then "" else ", ") ++ s ++ joinComma false rest

/-- The C type chosen for a variable declaration (`generate_statement`,
`AST_VAR_DECL`): an explicit source type is mapped through the type
table, otherwise the type is inferred from the initializer. -/
def varDeclCType (tyn : Option String) (v : Option AST) : String :=
  match tyn with
  | some t =>
    if t = "i32" then "int"
    else if t = "i64" then "long"
    else if t = "f32" then "float"
    else if t = "f64" then "double"
    else if t = "bool" then "bool"
    else if t = "string" then "const char*"
    else t
  | none =>
    match v with
    | some (AST.stringNode _) => "const char*"
    | some (AST.boolNode _) => "bool"
    | some (AST.structLit ty _ _) => ty
    | some (AST.numberNode nv) =>
      if nv.toList.contains '.' then "double" else "int"
    | _ => "int"

/-- Struct-field type mapping (`AST_STRUCT_DEF` case; `none` = the C's
default "int"). -/
def structFieldCType (ft : Option String) : String :=
  match ft with
  | some t =>
    if t = "f64" then "double"
    else if t = "f32" then "float"
    else if t = "i32" then "int"
    else if t = "bool" then "bool"
    else t
  | none => "int"

/-- Return-type mapping for non-main functions. -/
def mapRetType (rt : String) : String :=
  if rt = "i32" then "int"
  else if rt = "f64" then "double"
  else if rt = "void" then "void"
  else rt

/-- Parameter list text (`AST_FUNCTION` case): `type name` pairs,
type defaulting to "int" when NULL. -/
def genParams : Bool → List String → List (Option String) → String
  | _, [], _ => ""
  | _, _ :: _, [] => ""
  | first, n :: ns, t :: ts =>
    (if first then "" else ", ") ++ t.getD "int" ++ " " ++ n ++ genParams false ns ts

/-- The `io.println` detection of the `AST_METHOD_CALL` case: the method
is "println" and the object is the identifier `io`, or the member access
`io.println`. -/
def is_io_println (obj : Option AST) (method : String) : Bool :=
  method = "println" &&
  (match obj with
   | some (AST.identNode v) => v = "io"
   | some (AST.memberAccess o m) =>
     (match o with | some (AST.identNode v) => v = "io" | _ => false) &&
     m = "println"
   | _ => false)

/-- The per-argument contribution to the `printf` format string in the
`io.println` lowering: a string literal is folded in verbatim, a number
with a decimal point gives `%f`, other numbers and identifiers/binary
expressions give `%d`, anything else contributes nothing.  (A NULL
argument would be dereferenced by the C here — undefined behaviour —
modelled as no contribution.) -/
def printlnFmtArg : Option AST → String
  | some (AST.stringNode v) => v
  | some (AST.numberNode v) => if v.toList.contains '.' then "%f" else "%d"
  | some (AST.identNode _) => "%d"
  | some (AST.binaryOp _ _ _) => "%d"
  | _ => ""

/-- The `arg->type == AST_STRING` test of the positional-argument loop. -/
def isStringArg : Option AST → Bool
  | some (AST.stringNode _) => true
  | _ => false

/-- The format-string assembly loop of the `io.println` lowering, with
the C's `if (i > 0)` space separator. -/
def printlnFmt : Bool → List (Option AST) → String
  | _, [] => ""
  | first, a :: rest =>
    (if first then "" else " ") ++ printlnFmtArg a ++ printlnFmt false rest

mutual

/-- The `generate_expression` (text). -/
def genExpr : Nat → Option AST → String
  | _, none => ""
  | ind, some n =>
    match n with
    | .numberNode v => v
    | .stringNode v => "\"" ++ v ++ "\""
    | .stringInterp v => "\"" ++ v ++ "\""
    | .boolNode b => if b then "true" else "false"
    | .identNode v => v
    | .binaryOp op l r =>
      "(" ++ genExpr ind l ++ " " ++ op ++ " " ++ genExpr ind r ++ ")"
    | .memberAccess o m => genExpr ind o ++ "." ++ m
    | .methodCall obj m args =>
      if is_io_println obj m then
        "printf(\"" ++ printlnFmt true args ++ "\\n\"" ++
        printlnArgsTxt ind args ++ ")"
      else
        genExpr ind obj ++ "." ++ m ++ "(" ++ genCallArgs ind true args ++ ")"
    | .callNode fn args =>
      genExpr ind fn ++ "(" ++ genCallArgs ind true args ++ ")"
    | .structLit ty fns fs =>
      "(struct " ++ ty ++ ")\x7b" ++ genStructLitFields ind true fns fs ++ "\x7d"
    | .optionSome v =>
      "(Option)\x7b.is_some = true, .value = " ++ genExpr ind v ++ "\x7d"
    | .optionNone => "(Option)\x7b.is_some = false\x7d"
    | .rangeNode s e st =>
      "for (int _i = " ++ genExpr ind s ++ "; _i < " ++ genExpr ind e ++
      "; _i++" ++
      (match st with
       | some stv => " /* step: " ++ genExpr ind (some stv) ++ " */"
       | none => "") ++ ")"
    | .patternMatch scrut arms =>
      "/* Pattern match */\n" ++ indentStr ind ++ genArms ind scrut true arms
    | x => "/* Unknown expression type " ++ toString (astTypeNum x) ++ " */"
termination_by ind o => (sizeOf o, 0)

/-- The positional-argument loop of the `io.println` lowering: every
non-string argument is appended after the format string. -/
def printlnArgsTxt : Nat → List (Option AST) → String
  | _, [] => ""
  | ind, a :: rest =>
    (if isStringArg a then "" else ", " ++ genExpr ind a) ++
    printlnArgsTxt ind rest
termination_by ind l => (sizeOf l, 0)

/-- Comma-separated generated arguments (method calls and calls). -/
def genCallArgs : Nat → Bool → List (Option AST) → String
  | _, _, [] => ""
  | ind, first, a :: rest =>
    (if first then "" else ", ") ++ genExpr ind a ++ genCallArgs ind false rest
termination_by ind first l => (sizeOf l, 0)

/-- Struct-literal designated initializers `.name = expr`. -/
def genStructLitFields : Nat → Bool → List String → List (Option AST) → String
  | _, _, _, [] => ""
  | _, _, [], _ :: _ => ""
  | ind, first, fn :: fns, fv :: fs =>
    (if first then "" else ", ") ++ "." ++ fn ++ " = " ++ genExpr ind fv ++
    genStructLitFields ind false fns fs
termination_by ind first fns fs => (sizeOf fs, 0)

/-- The arm loop of the `AST_PATTERN_MATCH` case: arms in source order,
joined by " else "; an arm with a pattern emits
`if (scrutinee == pattern)`, an arm without one emits `if (scrutinee)`.
(Arms are always `patternArm` nodes; the C reads the union fields
blindly.) -/
def genArms : Nat → Option AST → Bool → List AST → String
  | _, _, _, [] => ""
  | ind, scrut, first, arm :: rest =>
    (if first then "" else " else ") ++
    (match arm with
     | .patternArm pat body =>
       (match pat with
        | some pv =>
          "if (" ++ genExpr ind scrut ++ " == " ++ genExpr ind (some pv) ++ ") "
        | none => "if (" ++ genExpr ind scrut ++ ") ") ++
       genStmt ind body
     | _ => "") ++
    genArms ind scrut false rest
termination_by ind scrut first arms => (sizeOf scrut + sizeOf arms, 0)

/-- The `generate_statement` (text). -/
def genStmt : Nat → Option AST → String
  | _, none => ""
  | ind, some n =>
    match n with
    | .importDecl names _ =>
      indentStr ind ++ "/* Import: " ++ joinComma true names ++ " from @std */\n"
    | .varDecl name tyn v isMut isFwd =>
      indentStr ind ++
      (if !isMut && !isFwd && varDeclCType tyn v ≠ "const char*" then "const "
       else "") ++
      varDeclCType tyn v ++ " " ++ name ++
      (match v with
       | some vv => " = " ++ genExpr ind (some vv)
       | none => "") ++ ";\n"
    | .assignment tgt v =>
      indentStr ind ++ genExpr ind tgt ++ " = " ++ genExpr ind v ++ ";\n"
    | .functionDecl name pns pts _ rt body =>
      (if name = "main" then "\nint main(void) "
       else
         "\n" ++ mapRetType rt ++ " " ++ name ++ "(" ++
         genParams true pns pts ++ ") ") ++
      genStmt ind body ++ "\n"
    | .structDef name fns fts _ fds =>
      "\ntypedef struct " ++ name ++ " \x7b\n" ++
      genStructDefFieldsTxt (ind + 1) fns fts fds ++
      "\x7d " ++ name ++ ";\n"
    | .enumDef name vs =>
      "\ntypedef enum " ++ name ++ " \x7b\n" ++
      genEnumVariants (ind + 1) name vs ++
      "\x7d " ++ name ++ ";\n"
    | .blockNode stmts =>
      "\x7b\n" ++ genStmts (ind + 1) stmts ++ indentStr ind ++ "\x7d"
    | .returnNode v =>
      indentStr ind ++ "return" ++
      (match v with
       | some vv => " " ++ genExpr ind (some vv)
       | none => "") ++ ";\n"
    | .breakNode => indentStr ind ++ "break;\n"
    | .continueNode => indentStr ind ++ "continue;\n"
    | .loopNode cond body =>
      indentStr ind ++
      (match cond with
       | some c => "while (" ++ genExpr ind (some c) ++ ") "
       | none => "while (1) ") ++
      genStmt ind body ++ "\n"
    | .deferNode e =>
      indentStr ind ++ "/* defer: " ++ genExpr ind e ++ " */\n"
    | x =>
      match x with
      | .methodCall a b c =>
        indentStr ind ++ genExpr ind (some (.methodCall a b c)) ++ ";\n"
      | .callNode a b =>
        indentStr ind ++ genExpr ind (some (.callNode a b)) ++ ";\n"
      | .patternMatch a b =>
        indentStr ind ++ genExpr ind (some (.patternMatch a b)) ++ ";\n"
      | _ =>
        indentStr ind ++ "/* Unknown statement type " ++
        toString (astTypeNum x) ++ " */\n"
termination_by ind o => (sizeOf o, 1)

/-- Struct-definition field lines (at the incremented indent level). -/
def genStructDefFieldsTxt : Nat → List String → List (Option String) →
    List (Option AST) → String
  | _, [], _, _ => ""
  | _, _ :: _, [], _ => ""
  | _, _ :: _, _ :: _, [] => ""
  | ind, fn :: fns, ft :: fts, fd :: fds =>
    indentStr ind ++ structFieldCType ft ++ " " ++ fn ++
    (match fd with
     | some d => " /* default: " ++ genExpr ind (some d) ++ " */"
     | none => "") ++ ";\n" ++
    genStructDefFieldsTxt ind fns fts fds
termination_by ind fns fts fds => (sizeOf fds, 0)

/-- Enum variant lines `NAME_VARIANT,` (comma on all but the last). -/
def genEnumVariants : Nat → String → List String → String
  | _, _, [] => ""
  | ind, name, v :: rest =>
    indentStr ind ++ name ++ "_" ++ v ++
    (if rest.isEmpty then "" else ",") ++ "\n" ++
    genEnumVariants ind name rest

/-- Concatenated statements of a block. -/
def genStmts : Nat → List AST → String
  | _, [] => ""
  | ind, s :: rest => genStmt ind (some s) ++ genStmts ind rest
termination_by ind l => (sizeOf l, 0)
decreasing_by
  all_goals simp_wf
  all_goals first
    | exact Prod.Lex.left _ _ (by have := list_sizeOf_pos rest; omega)
    | exact Prod.Lex.left _ _ (by omega)

end

mutual

/-- Evolution of the `in_main` flag across `generate_expression`.  The
flag is only assigned in the `AST_FUNCTION` case of
`generate_statement`; these functions mirror the emitter's recursive
call structure exactly. -/
def inMainExpr : Bool → Option AST → Bool
  | m, none => m
  | m, some n =>
    match n with
    | .binaryOp _ l r => inMainExpr (inMainExpr m l) r
    | .memberAccess o _ => inMainExpr m o
    | .methodCall obj mth args =>
      if is_io_println obj mth then inMainPrintlnArgs m args
      else inMainExprs (inMainExpr m obj) args
    | .callNode fn args => inMainExprs (inMainExpr m fn) args
    | .structLit _ _ fs => inMainExprs m fs
    | .optionSome v => inMainExpr m v
    | .rangeNode s e st =>
      let m := inMainExpr (inMainExpr m s) e
      (match st with
       | some stv => inMainExpr m (some stv)
       | none => m)
    | .patternMatch scrut arms => inMainArms m scrut arms
    | _ => m
termination_by m o => (sizeOf o, 0)

/-- Flag evolution over the positional `io.println` arguments (only
non-string arguments are generated). -/
def inMainPrintlnArgs : Bool → List (Option AST) → Bool
  | m, [] => m
  | m, a :: rest =>
    let m := if isStringArg a then m else inMainExpr m a
    inMainPrintlnArgs m rest
termination_by m l => (sizeOf l, 0)

/-- Flag evolution over a generated argument list. -/
def inMainExprs : Bool → List (Option AST) → Bool
  | m, [] => m
  | m, a :: rest => inMainExprs (inMainExpr m a) rest
termination_by m l => (sizeOf l, 0)

/-- Flag evolution over pattern-match arms (scrutinee and pattern are
re-generated per arm, then the body statement). -/
def inMainArms : Bool → Option AST → List AST → Bool
  | m, _, [] => m
  | m, scrut, arm :: rest =>
    let m := match arm with
      | AST.patternArm pat body =>
        let m := match pat with
          | some pv => inMainExpr (inMainExpr m scrut) (some pv)
          | none => inMainExpr m scrut
        inMainStmt m body
      | _ => m
    inMainArms m scrut rest
termination_by m scrut arms => (sizeOf scrut + sizeOf arms, 0)

/-- Evolution of the `in_main` flag across `generate_statement`: the
`AST_FUNCTION` case sets it for `main` and unconditionally clears it
again after the body. -/
def inMainStmt : Bool → Option AST → Bool
  | m, none => m
  | m, some n =>
    match n with
    | .varDecl _ _ v _ _ =>
      (match v with
       | some vv => inMainExpr m (some vv)
       | none => m)
    | .assignment tgt v => inMainExpr (inMainExpr m tgt) v
    | .functionDecl name _ _ _ _ body =>
      let m1 := if name = "main" then true else m
      let m2 := inMainStmt m1 body
      if name = "main" then false else m2
    | .structDef _ _ _ _ fds => inMainDefaults m fds
    | .blockNode stmts => inMainStmts m stmts
    | .returnNode v =>
      (match v with
       | some vv => inMainExpr m (some vv)
       | none => m)
    | .loopNode cond body =>
      let m := match cond with
        | some c => inMainExpr m (some c)
        | none => m
      inMainStmt m body
    | .deferNode e => inMainExpr m e
    | x =>
      match x with
      | .methodCall a b c => inMainExpr m (some (.methodCall a b c))
      | .callNode a b => inMainExpr m (some (.callNode a b))
      | .patternMatch a b => inMainExpr m (some (.patternMatch a b))
      | _ => m
termination_by m o => (sizeOf o, 1)

/-- Flag evolution over struct-definition default expressions. -/
def inMainDefaults : Bool → List (Option AST) → Bool
  | m, [] => m
  | m, fd :: fds =>
    let m := match fd with
      | some d => inMainExpr m (some d)
      | none => m
    inMainDefaults m fds
termination_by m l => (sizeOf l, 0)

/-- Flag evolution over a statement list. -/
def inMainStmts : Bool → List AST → Bool
  | m, [] => m
  | m, s :: rest => inMainStmts (inMainStmt m (some s)) rest
termination_by m l => (sizeOf l, 0)
decreasing_by
  all_goals simp_wf
  all_goals first
    | exact Prod.Lex.left _ _ (by have := list_sizeOf_pos rest; omega)
    | exact Prod.Lex.left _ _ (by omega)

end

/-- The fixed preamble and `Option` helper emitted by
`generate_program`. -/
def cHeader : String :=
  "// Generated C code from Zen compiler v4\n" ++
  "#include <stdio.h>\n#include <stdlib.h>\n" ++
  "#include <stdbool.h>\n#include <string.h>\n\n" ++
  "typedef struct Option \x7b\n    bool is_some;\n    void* value;\n\x7d Option;\n\n"

/-- The `generate_program`: preamble, Option helper, the statements in
order, and — only if the `in_main` flag is still set at the end —
`return 0;`. -/
def generate_program (stmts : List AST) : String :=
  cHeader ++ genStmts 0 stmts ++
  (if inMainStmts false stmts then "\n    return 0;\n" else "")

/-- Initial parser state over a token vector (`parser_new`). -/
def initPState (toks : List Token) : PState :=
  ⟨toks, 0, 0⟩

/-- Top-level statements parsed from a source string (the `main` driver's
lexer+parser phases; the fuel is irrelevant once large enough). -/
def zencParse (fuel : Nat) (s : String) : List AST × PState :=
  let toks := lexer_tokenize s.toList
  let (prog, p) := parse_program fuel (initPState toks)
  match prog with
  | some (AST.program stmts) => (stmts, p)
  | _ => ([], p)

/-- The full zenc4 pipeline: source text to emitted C text. -/
def zencCompile (fuel : Nat) (s : String) : String :=
  generate_program (zencParse fuel s).1

/-! ## Theorems -/

/-- C5: declaration mutability in the emitted C.  Through the full zenc4
pipeline, `x = 10` parses to an immutable declaration and emits
`const int x = 10;` (type inferred as `int` from the integer literal),
`x ::= 10` parses to a mutable inferred-type declaration and emits
`int x = 10;`, and `x :: i32` parses to a mutable forward declaration
and emits `int x;` with no initializer and no `const`. -/
theorem C5_declaration_mutability :
    (zencParse 200 "x = 10").1 =
      [.varDecl "x" none (some (.numberNode "10")) false false] ∧
    genStmts 0 [.varDecl "x" none (some (.numberNode "10")) false false] =
      "const int x = 10;\n" ∧
    (zencParse 200 "x ::= 10").1 =
      [.varDecl "x" none (some (.numberNode "10")) true false] ∧
    genStmts 0 [.varDecl "x" none (some (.numberNode "10")) true false] =
      "int x = 10;\n" ∧
    (zencParse 200 "x :: i32").1 =
      [.varDecl "x" (some "i32") none true true] ∧
    genStmts 0 [.varDecl "x" (some "i32") none true true] = "int x;\n" := by
  refine ⟨by rfl, ?_, by rfl, ?_, by rfl, ?_⟩ <;>
    simp [genStmts, genStmt, varDeclCType, indentStr, genExpr] <;> decide

set_option maxRecDepth 20000 in
/-- C7: evaluation at the failing input.  `main = () void { break }`
parses to a `main` whose body does not end with a `return`, and the
emitted file is exactly the preamble plus `int main(void) { break; }` —
no `return 0;` appears anywhere: the `AST_FUNCTION` case clears the
`in_main` flag again before the final check of `generate_program` reads it. -/
theorem C7_return0_never_appended :
    (zencParse 200 "main = () void \x7b break \x7d").1 =
      [.functionDecl "main" [] [] [] "void" (some (.blockNode [.breakNode]))] ∧
    generate_program
        [.functionDecl "main" [] [] [] "void" (some (.blockNode [.breakNode]))] =
      cHeader ++ "\nint main(void) \x7b\n    break;\n\x7d\n" ∧
    strContains
      (generate_program
        [.functionDecl "main" [] [] [] "void" (some (.blockNode [.breakNode]))])
      "return 0" = false := by
  have h : generate_program
      [.functionDecl "main" [] [] [] "void" (some (.blockNode [.breakNode]))] =
      cHeader ++ "\nint main(void) \x7b\n    break;\n\x7d\n" := by
    simp [generate_program, cHeader, genStmts, genStmt, indentStr,
      inMainStmts, inMainStmt] <;> decide
  refine ⟨by rfl, h, ?_⟩
  rw [h]
  decide

set_option maxRecDepth 20000 in
/-- C8: evaluation at the failing input.  zenc4's `parse_block` has no
statement cap: a block of 101 `break` statements is parsed into 101
block entries with no error reported, although the C allocates only 100
statement-pointer slots — the 101st store is past the buffer. -/
theorem C8_no_block_cap :
    parse_block 300 (initPState
        (⟨.TOK_LBRACE, none⟩ ::
          List.replicate 101 (⟨.TOK_BREAK, none⟩ : Token) ++
          [⟨.TOK_RBRACE, none⟩, ⟨.TOK_EOF, none⟩])) =
      (some (.blockNode (List.replicate 101 AST.breakNode)),
        { tokens := ⟨.TOK_LBRACE, none⟩ ::
            List.replicate 101 (⟨.TOK_BREAK, none⟩ : Token) ++
            [⟨.TOK_RBRACE, none⟩, ⟨.TOK_EOF, none⟩],
          cur := 103, errs := 0 }) ∧
    (List.replicate 101 AST.breakNode).length = 101 ∧ 100 < 101 :=
  ⟨by rfl, by rfl, by omega⟩

/-- C1 counterexample: for `count = count + 1` the parsed value is a
binary expression with the identifier `count` as its left operand, yet
the parser emits an immutable variable declaration, not an assignment —
the heuristic additionally requires the name to be a single character or
to contain an underscore, which "count" is not.  No error is reported. -/
theorem C1_counterexample :
    (zencParse 200 "count = count + 1").1 =
      [.varDecl "count" none
        (some (.binaryOp "+" (some (.identNode "count"))
          (some (.numberNode "1"))))
        false false] ∧
    (zencParse 200 "count = count + 1").2.errs = 0 :=
  ⟨by rfl, by rfl⟩

set_option maxRecDepth 20000 in
/-- C2 counterexample: the direct form `@std.io.println("hi")` is never
lowered to `printf`.  `parse_at_symbol` consumes the whole dotted path
and `parse_postfix` only builds calls when the callee is an identifier
node, so the statement parses to a bare at-symbol followed by a separate
parenthesized string expression, and the emitted program contains no
`printf` at all; the imported form `io.println("hi")` in contrast parses
to a method call that is lowered to `printf("hi\n")`. -/
theorem C2_counterexample :
    (zencParse 300 "main = () void \x7b @std.io.println(\"hi\") \x7d").1 =
      [.functionDecl "main" [] [] [] "void"
        (some (.blockNode
          [.atSymbol "std" (some "io.println"), .stringNode "hi"]))] ∧
    strContains
      (generate_program
        [.functionDecl "main" [] [] [] "void"
          (some (.blockNode
            [.atSymbol "std" (some "io.println"), .stringNode "hi"]))])
      "printf" = false ∧
    (zencParse 300 "main = () void \x7b io.println(\"hi\") \x7d").1 =
      [.functionDecl "main" [] [] [] "void"
        (some (.blockNode
          [.methodCall (some (.identNode "io")) "println"
            [some (.stringNode "hi")]]))] ∧
    genExpr 0 (some (.methodCall (some (.identNode "io")) "println"
        [some (.stringNode "hi")])) = "printf(\"hi\\n\")" := by
  have h : generate_program
      [.functionDecl "main" [] [] [] "void"
        (some (.blockNode
          [.atSymbol "std" (some "io.println"), .stringNode "hi"]))] =
      cHeader ++
        "\nint main(void) \x7b\n    /* Unknown statement type 29 */\n    /* Unknown statement type 9 */\n\x7d\n" := by
    simp [generate_program, cHeader, genStmts, genStmt, genExpr, indentStr,
      inMainStmts, inMainStmt, inMainExpr, astTypeNum] <;> decide
  refine ⟨by rfl, ?_, by rfl, ?_⟩
  · rw [h]; decide
  · simp [genExpr, is_io_println, printlnFmt, printlnFmtArg, printlnArgsTxt,
      isStringArg] <;> decide

set_option maxRecDepth 20000 in
/-- C4 counterexample: the emitter has no special case for the wildcard
pattern.  A pattern-match arm whose pattern is the identifier `_` (which
is how `_` reaches the parser) emits the condition `scrutinee == _`, an
ordinary equality comparison against the undefined C identifier `_`, not
the constant true that would close the chain. -/
theorem C4_counterexample :
    genExpr 0 (some (.patternMatch (some (.identNode "x"))
        [.patternArm (some (.identNode "_")) (some (.blockNode []))])) =
      "/* Pattern match */\nif (x == _) \x7b\n\x7d" ∧
    strContains
      (genExpr 0 (some (.patternMatch (some (.identNode "x"))
        [.patternArm (some (.identNode "_")) (some (.blockNode []))])))
      "== _" = true := by
  have h : genExpr 0 (some (.patternMatch (some (.identNode "x"))
      [.patternArm (some (.identNode "_")) (some (.blockNode []))])) =
      "/* Pattern match */\nif (x == _) \x7b\n\x7d" := by
    simp [genExpr, genArms, genStmt, genStmts, indentStr] <;> decide
  exact ⟨h, by rw [h]; decide⟩

/-- C6 counterexample: zenc4's `scan_string` does not decode escapes.
For the source literal `"a\nb"` the token payload is the raw text
`a\nb` — the backslash-escape remains unprocessed in the payload — and
it differs from the decoded contents `['a', '\n', 'b']`. -/
theorem C6_counterexample :
    lexer_tokenize "\"a\\nb\"".toList =
      [⟨.TOK_STRING, some "a\\nb"⟩, ⟨.TOK_EOF, none⟩] ∧
    '\\' ∈ "a\\nb".toList ∧
    "a\\nb".toList ≠ specDecode "a\\nb".toList :=
  ⟨by rfl, by decide, by decide⟩

/-- C9: parser token access is total.  The lexer always produces a
non-empty token vector ending in the EOF token; `current_token` and
`peek_token` read an index that is within the vector for every cursor
position and offset (clamping to the last token past the end), and
`advanceParser` never moves the cursor past the final token. -/
theorem C9_token_access_total :
    (∀ cs, lexer_tokenize cs ≠ [] ∧
      (lexer_tokenize cs).getLast? = some ⟨.TOK_EOF, none⟩) ∧
    (∀ count cur, 1 ≤ count → currentIdx count cur < count) ∧
    (∀ count cur off, 1 ≤ count → peekIdx count cur off < count) ∧
    (∀ count cur, cur ≤ count - 1 → advanceCur count cur ≤ count - 1) := by
  refine ⟨fun cs => ⟨?_, ?_⟩, ?_, ?_, ?_⟩
  · simp [lexer_tokenize]
  · simp [lexer_tokenize]
  · intro count cur h; unfold currentIdx; split <;> omega
  · intro count cur off h; unfold peekIdx; split <;> omega
  · intro count cur h; unfold advanceCur; split <;> omega

/-- C9 witness: the guarantees at concrete inputs. -/
theorem C9_witness :
    lexer_tokenize "x".toList ≠ [] ∧
    currentIdx 2 5 < 2 ∧ peekIdx 2 0 7 < 2 ∧ advanceCur 2 1 ≤ 1 :=
  ⟨(C9_token_access_total.1 "x".toList).1,
   C9_token_access_total.2.1 2 5 (by omega),
   C9_token_access_total.2.2.1 2 0 7 (by omega),
   C9_token_access_total.2.2.2 2 1 (by omega)⟩

/-- C3: longest-match tokenization of multi-character operators.  At any
position, `::=` yields exactly one `::=` token consuming three
characters (never `::` then `=`), `::` not followed by `=` yields one
`::` token, `==` yields one equality token (never two assignments), and
`->` yields one arrow token; whole-input runs confirm the token
streams. -/
theorem C3_longest_match :
    (∀ rest, lexStep (':' :: ':' :: '=' :: rest) =
      (some ⟨.TOK_COLON_COLON_ASSIGN, none⟩, rest)) ∧
    (∀ rest, rest.head? ≠ some '=' →
      lexStep (':' :: ':' :: rest) = (some ⟨.TOK_COLON_COLON, none⟩, rest)) ∧
    (∀ rest, lexStep ('=' :: '=' :: rest) =
      (some ⟨.TOK_EQUAL, none⟩, rest)) ∧
    (∀ rest, lexStep ('-' :: '>' :: rest) =
      (some ⟨.TOK_ARROW, none⟩, rest)) ∧
    lexer_tokenize "::=".toList =
      [⟨.TOK_COLON_COLON_ASSIGN, none⟩, ⟨.TOK_EOF, none⟩] ∧
    lexer_tokenize "::".toList =
      [⟨.TOK_COLON_COLON, none⟩, ⟨.TOK_EOF, none⟩] ∧
    lexer_tokenize "==".toList =
      [⟨.TOK_EQUAL, none⟩, ⟨.TOK_EOF, none⟩] ∧
    lexer_tokenize "->".toList =
      [⟨.TOK_ARROW, none⟩, ⟨.TOK_EOF, none⟩] := by
  refine ⟨fun rest => by rfl, ?_, fun rest => by rfl, fun rest => by rfl,
    by rfl, by rfl, by rfl, by rfl⟩
  intro rest h
  match rest with
  | [] => rfl
  | c :: rest2 =>
    have hc : c ≠ '=' := by simpa using h
    simp [lexStep, isAlphaC, isDigitC, hc]

/-- C3 witness: `::` followed by a non-`=` character. -/
theorem C3_witness :
    lexStep (':' :: ':' :: 'x' :: []) =
      (some ⟨.TOK_COLON_COLON, none⟩, ['x']) :=
  C3_longest_match.2.1 ['x'] (by decide)

theorem keywordType_ne_underscore (s : String) :
    keywordType s ≠ .TOK_UNDERSCORE := by
  unfold keywordType
  repeat' split
  all_goals decide

theorem lexStep_no_underscore :
    ∀ cs t r, lexStep cs = (some t, r) → t.ttype ≠ .TOK_UNDERSCORE := by
  intro cs t r hstep
  cases cs with
  | nil => simp [lexStep] at hstep
  | cons c rest =>
    unfold lexStep at hstep
    repeat' split at hstep
    all_goals
      simp only [Prod.mk.injEq, Option.some.injEq, reduceCtorEq,
        false_and] at hstep
    all_goals obtain ⟨h1, -⟩ := hstep
    all_goals subst h1
    all_goals first
      | decide
      | exact keywordType_ne_underscore _
      | simp_all [isAlphaC]

theorem tokenizeAux_no_underscore :
    ∀ fuel cs t, t ∈ tokenizeAux fuel cs → t.ttype ≠ .TOK_UNDERSCORE := by
  intro fuel
  induction fuel with
  | zero => intro cs t ht; simp [tokenizeAux] at ht
  | succ f ih =>
    intro cs t ht
    rw [tokenizeAux] at ht
    rcases hws : skip_whitespace cs with - | ⟨w, ws⟩ <;> rw [hws] at ht
    · simp at ht
    · rcases hls : lexStep (w :: ws) with ⟨t', r⟩
      rcases t' with - | t'' <;> rw [hls] at ht
      · exact ih _ _ ht
      · rcases List.mem_cons.1 ht with h | h
        · subst h; exact lexStep_no_underscore _ _ _ hls
        · exact ih _ _ h

/-- C10: a standalone `_` is consumed by the identifier rule (it is a
valid identifier start) and becomes an identifier token with payload
"_"; the dedicated underscore token kind is never produced for any
input — the `'_'` case of the operator switch is unreachable. -/
theorem C10_underscore_unreachable :
    (∀ cs t, t ∈ lexer_tokenize cs → t.ttype ≠ .TOK_UNDERSCORE) ∧
    (∀ rest, isIdentChar (rest.headD ' ') = false →
      lexStep ('_' :: rest) = (some ⟨.TOK_IDENTIFIER, some "_"⟩, rest)) := by
  constructor
  · intro cs t ht
    rw [lexer_tokenize] at ht
    rcases List.mem_append.1 ht with h | h
    · exact tokenizeAux_no_underscore _ _ _ h
    · simp at h; subst h; decide
  · intro rest hrest
    have hscan : scan_identifier ('_' :: rest) = ("_", rest) := by
      unfold scan_identifier
      cases rest with
      | nil => rfl
      | cons h2 t2 =>
        have h2f : isIdentChar h2 = false := by simpa using hrest
        simp [List.takeWhile, List.dropWhile, h2f,
          show isIdentChar '_' = true from by decide]
    simp [lexStep, hscan, keywordType, isAlphaC]

/-- C10 witness: `_ y` lexes without any underscore-kind token, and a
standalone `_` followed by a space becomes an identifier token. -/
theorem C10_witness :
    (⟨.TOK_UNDERSCORE, none⟩ : Token) ∉ lexer_tokenize "_ y".toList ∧
    lexStep ('_' :: [' ']) = (some ⟨.TOK_IDENTIFIER, some "_"⟩, [' ']) := by
  constructor
  · intro hmem
    exact C10_underscore_unreachable.1 _ _ hmem rfl
  · exact C10_underscore_unreachable.2 [' '] (by decide)

theorem zenc3_scan_decodes (cs : List Char) :
    properlyTerminated cs = true →
      (zenc3_scan_string_body cs).1 = specDecode cs := by
  induction cs using zenc3_scan_string_body.induct with
  | case1 => intro h; simp [properlyTerminated] at h
  | case2 rest => intro _; rfl
  | case3 => intro h; simp [properlyTerminated] at h
  | case4 c rest p r hpr ih =>
    intro h
    have hterm : properlyTerminated rest = true := by
      simpa [properlyTerminated] using h
    have hp : p = specDecode rest := by rw [← ih hterm, hpr]
    simp [zenc3_scan_string_body, specDecode, hpr, hp]
    show zenc3_escape c = specEscape c
    unfold zenc3_escape specEscape
    rfl
  | case5 c rest h1 h2 h3 p r hpr ih =>
    intro h
    have hcq : c ≠ '"' := fun hc => h1 hc
    have hcb : c ≠ '\\' := by
      intro hc
      cases rest with
      | nil => exact h2 hc rfl
      | cons c1 r1 => exact h3 c1 r1 hc rfl
    have hterm : properlyTerminated rest = true := by
      simpa [properlyTerminated, hcq, hcb] using h
    have hp : p = specDecode rest := by rw [← ih hterm, hpr]
    simp [zenc3_scan_string_body, specDecode, hpr, hp, hcq, hcb]

theorem zenc4_scan_is_raw (cs : List Char) :
    ∃ n, (scan_string_body cs).1 = cs.take n := by
  induction cs using scan_string_body.induct with
  | case1 => exact ⟨0, rfl⟩
  | case2 rest => exact ⟨0, rfl⟩
  | case3 => exact ⟨1, rfl⟩
  | case4 c rest p r hpr ih =>
    obtain ⟨n, hn⟩ := ih
    rw [hpr] at hn
    exact ⟨n + 2, by simp [scan_string_body, hpr, hn]⟩
  | case5 c rest h1 h2 h3 p r hpr ih =>
    obtain ⟨n, hn⟩ := ih
    rw [hpr] at hn
    have hcq : c ≠ '"' := fun hc => h1 hc
    have hcb : c ≠ '\\' := by
      intro hc
      cases rest with
      | nil => exact h2 hc rfl
      | cons c1 r1 => exact h3 c1 r1 hc rfl
    exact ⟨n + 1, by simp [scan_string_body, hpr, hn, hcq, hcb]⟩

/-- C6 amended: zenc3's string scanner decodes escapes exactly as the
claim's table specifies (for every properly terminated literal body the
payload equals the spec-side decoded contents), while zenc4's
`scan_string` leaves the region between the quotes raw — its payload is
always a verbatim prefix of the scanned text, escapes included. -/
theorem C6_escape_decoding :
    (∀ cs, properlyTerminated cs = true →
      (zenc3_scan_string_body cs).1 = specDecode cs) ∧
    (∀ cs, ∃ n, (scan_string_body cs).1 = cs.take n) :=
  ⟨zenc3_scan_decodes, zenc4_scan_is_raw⟩

/-- C6 witness: the body `a\nb"x` is properly terminated, and zenc3's
payload for it equals the decoded contents. -/
theorem C6_witness :
    properlyTerminated "a\\nb\"x".toList = true ∧
    (zenc3_scan_string_body "a\\nb\"x".toList).1 =
      specDecode "a\\nb\"x".toList :=
  ⟨by decide, C6_escape_decoding.1 _ (by decide)⟩

theorem isIdentNamed_iff (o : Option AST) (name : String) :
    isIdentNamed o name = true ↔ o = some (.identNode name) := by
  rcases o with - | node
  · simp [isIdentNamed]
  · cases node <;> simp [isIdentNamed]

/-- C1 amended: the `name = value` statement is parsed as an assignment
exactly when the name is a single character or contains an underscore
*and* the parsed value is a binary expression with the identifier `name`
as its left or right immediate operand; in every other case an immutable
variable declaration is produced.  In particular `v ::= 1; v = v + 2`
still yields a declaration of `v` followed by a plain assignment, since
`v` is a single character. -/
theorem C1_assignment_heuristic :
    (∀ name v, is_likely_assignment name v = true ↔
      ((name.length = 1 ∨ '_' ∈ name.toList) ∧
       ∃ op l r, v = some (.binaryOp op l r) ∧
         (l = some (.identNode name) ∨ r = some (.identNode name)))) ∧
    (∀ name v, is_likely_assignment name v = true →
      classifyAssign name v = .assignment (some (.identNode name)) v) ∧
    (∀ name v, is_likely_assignment name v = false →
      classifyAssign name v = .varDecl name none v false false) ∧
    (zencParse 200 "v ::= 1; v = v + 2").1 =
      [.varDecl "v" none (some (.numberNode "1")) true false,
       .assignment (some (.identNode "v"))
         (some (.binaryOp "+" (some (.identNode "v"))
           (some (.numberNode "2"))))] := by
  refine ⟨?_, ?_, ?_, by rfl⟩
  · intro name v
    unfold is_likely_assignment
    rw [Bool.and_eq_true, Bool.or_eq_true]
    constructor
    · rintro ⟨h1, h2⟩
      refine ⟨?_, ?_⟩
      · rcases h1 with h | h
        · exact Or.inl (by simpa using h)
        · exact Or.inr (by simpa using h)
      · rcases v with - | node
        · simp at h2
        · cases node <;> simp [isIdentNamed_iff] at h2
          case binaryOp op l r => exact ⟨op, l, r, rfl, h2⟩
    · rintro ⟨h1, op, l, r, rfl, h2⟩
      refine ⟨?_, ?_⟩
      · rcases h1 with h | h
        · exact Or.inl (by simpa using h)
        · exact Or.inr (by simpa using h)
      · simp [isIdentNamed_iff]
        exact h2
  · intro name v h
    unfold classifyAssign
    rw [h]
    rfl
  · intro name v h
    unfold classifyAssign
    rw [h]
    rfl

/-- C1 witness: the heuristic at concrete inputs — for name `v` and
value `v + 2` it classifies as an assignment, and for name `count` with
value `count + 1` it does not. -/
theorem C1_witness :
    is_likely_assignment "v"
      (some (.binaryOp "+" (some (.identNode "v"))
        (some (.numberNode "2")))) = true ∧
    classifyAssign "v"
      (some (.binaryOp "+" (some (.identNode "v"))
        (some (.numberNode "2")))) =
      .assignment (some (.identNode "v"))
        (some (.binaryOp "+" (some (.identNode "v"))
          (some (.numberNode "2")))) ∧
    is_likely_assignment "count"
      (some (.binaryOp "+" (some (.identNode "count"))
        (some (.numberNode "1")))) = false := by
  have h1 : is_likely_assignment "v"
      (some (.binaryOp "+" (some (.identNode "v"))
        (some (.numberNode "2")))) = true :=
    (C1_assignment_heuristic.1 _ _).2
      ⟨Or.inl (by decide), "+", _, _, rfl, Or.inl rfl⟩
  refine ⟨h1, C1_assignment_heuristic.2.1 _ _ h1, ?_⟩
  cases h : is_likely_assignment "count"
      (some (.binaryOp "+" (some (.identNode "count"))
        (some (.numberNode "1"))))
  · rfl
  · exfalso
    rcases (C1_assignment_heuristic.1 _ _).1 h with ⟨hname, -⟩
    rcases hname with hh | hh <;> exact absurd hh (by decide)

/-! Spec-side definitions for the `io.println` lowering and the
pattern-match chain, written from the claims' words, to be compared with
the source-derived emitter. -/

/-- Concatenation of a list of strings. -/
def strConcat : List String → String
  | [] => ""
  | s :: rest => s ++ strConcat rest

/-- Elements joined by a separator. -/
def joinedBy (sep : String) : List String → String
  | [] => ""
  | [s] => s
  | s :: rest => s ++ sep ++ joinedBy sep rest

theorem joinedBy_cons (sep x : String) (xs : List String) :
    joinedBy sep (x :: xs) = x ++ strConcat (xs.map (sep ++ ·)) := by
  induction xs generalizing x with
  | nil => simp [joinedBy, strConcat]
  | cons y ys ih =>
    rw [show joinedBy sep (x :: y :: ys) = x ++ sep ++ joinedBy sep (y :: ys)
      from rfl, ih]
    simp [strConcat, String.append_assoc]

/-- Spec-side per-argument format contribution: a string literal is
folded into the format string verbatim, a number containing a decimal
point contributes `%f`, other numbers and identifier or
binary-expression arguments contribute `%d`, anything else contributes
nothing. -/
def specFmtArg : Option AST → String
  | some (AST.stringNode v) => v
  | some (AST.numberNode v) => if v.toList.contains '.' then "%f" else "%d"
  | some (AST.identNode _) => "%d"
  | some (AST.binaryOp _ _ _) => "%d"
  | _ => ""

/-- Spec-side format string: the per-argument contributions joined by
single spaces. -/
def specPrintlnFmt (args : List (Option AST)) : String :=
  joinedBy " " (args.map specFmtArg)

/-- Spec-side positional arguments: every non-string argument appears
after the format string, preceded by ", ". -/
def specPrintlnArgs (ind : Nat) (args : List (Option AST)) : String :=
  strConcat ((args.filter (fun a => !isStringArg a)).map
    (fun a => ", " ++ genExpr ind a))

theorem printlnFmtArg_eq_spec (a : Option AST) :
    printlnFmtArg a = specFmtArg a := by
  rcases a with - | n
  · rfl
  · cases n <;> rfl

theorem printlnFmt_false_eq (args : List (Option AST)) :
    printlnFmt false args =
      strConcat (args.map (fun a => " " ++ specFmtArg a)) := by
  induction args with
  | nil => rfl
  | cons a rest ih =>
    rw [printlnFmt, ih]
    simp [strConcat, printlnFmtArg_eq_spec]

theorem printlnFmt_eq_spec (args : List (Option AST)) :
    printlnFmt true args = specPrintlnFmt args := by
  cases args with
  | nil => rfl
  | cons a rest =>
    rw [printlnFmt, printlnFmt_false_eq, specPrintlnFmt, List.map_cons,
      joinedBy_cons, printlnFmtArg_eq_spec]
    simp only [List.map_map]
    rfl

theorem printlnArgs_eq_spec (ind : Nat) (args : List (Option AST)) :
    printlnArgsTxt ind args = specPrintlnArgs ind args := by
  induction args with
  | nil => simp [printlnArgsTxt, specPrintlnArgs, strConcat]
  | cons a rest ih =>
    rw [printlnArgsTxt, ih]
    unfold specPrintlnArgs
    by_cases h : isStringArg a = true
    · simp [List.filter, h]
    · simp only [Bool.not_eq_true] at h
      simp [List.filter, h, strConcat]

/-- C2 amended: only the imported method-call form is lowered.  For every
method call `io.println(args)` the emitter produces a `printf` whose
format string is assembled from the argument shapes exactly as the claim
states — string literals folded in, `%f` for decimal numbers, `%d` for
other numbers, identifiers and binary expressions — with a trailing
newline appended, and every non-string argument passed positionally
after the format string.  (The direct `@std.io.println(args)` form never
reaches the emitter as a call; see the counterexample.) -/
theorem C2_io_println_lowering :
    ∀ ind args,
      genExpr ind (some (.methodCall (some (.identNode "io")) "println" args)) =
        "printf(\"" ++ specPrintlnFmt args ++ "\\n\"" ++
        specPrintlnArgs ind args ++ ")" := by
  intro ind args
  rw [genExpr]
  simp only [show is_io_println (some (.identNode "io")) "println" = true
    from rfl, if_true]
  rw [printlnFmt_eq_spec, printlnArgs_eq_spec]

/-- Spec-side text of one pattern-match arm (amended claim): the
condition is `scrutinee == pattern` whenever a pattern is present — the
wildcard identifier `_` is not special-cased — and the scrutinee itself
when the pattern is absent (boolean shorthand); the arm body follows. -/
def specArmTxt (ind : Nat) (scrut : Option AST) : AST → String
  | AST.patternArm (some pv) body =>
    "if (" ++ genExpr ind scrut ++ " == " ++ genExpr ind (some pv) ++ ") " ++
    genStmt ind body
  | AST.patternArm none body =>
    "if (" ++ genExpr ind scrut ++ ") " ++ genStmt ind body
  | _ => ""

theorem genArms_false_eq (ind : Nat) (scrut : Option AST)
    (arms : List AST) :
    genArms ind scrut false arms =
      strConcat (arms.map (fun a => " else " ++ specArmTxt ind scrut a)) := by
  induction arms with
  | nil => simp [genArms, strConcat]
  | cons arm rest ih =>
    cases arm
    case patternArm pat body =>
      cases pat <;> rw [genArms, ih] <;>
        simp [strConcat, specArmTxt, String.append_assoc]
    all_goals rw [genArms, ih]
    all_goals simp [strConcat, specArmTxt, String.append_assoc]

/-- C4 amended: the emitter produces an if/else-if chain with the arms
in source order joined by " else ", where an arm with a pattern —
including the wildcard identifier `_`, which is not special-cased —
emits the condition `scrutinee == pattern`, and a pattern-less arm
(boolean shorthand) emits the scrutinee itself; no arm emits a constant
true. -/
theorem C4_pattern_match_chain :
    ∀ ind scrut arms,
      genExpr ind (some (.patternMatch scrut arms)) =
        "/* Pattern match */\n" ++ indentStr ind ++
        joinedBy " else " (arms.map (specArmTxt ind scrut)) := by
  intro ind scrut arms
  rw [genExpr]
  cases arms with
  | nil => simp [genArms, joinedBy]
  | cons arm rest =>
    cases arm
    case patternArm pat body =>
      cases pat <;>
        rw [genArms, genArms_false_eq, List.map_cons, joinedBy_cons] <;>
        simp [specArmTxt, List.map_map, Function.comp, Function.comp_def,
          String.append_assoc]
    all_goals rw [genArms, genArms_false_eq, List.map_cons, joinedBy_cons]
    all_goals
      simp [specArmTxt, List.map_map, Function.comp, Function.comp_def,
        String.append_assoc]

end Zenc
